import Mathlib

/-!
Verification of the SecureTimedExamAccess token-lifecycle core.

The development shallowly embeds the Django service layer
(`exams/services.py`), the data model (`exams/models.py`), the relevant
views (`exams/views.py`) and the cleanup management command
(`exams/management/commands/cleanup_expired_tokens.py`).

Modelling conventions:
- Timezone-aware instants are `Int`, measured in minutes, so
  `timedelta(minutes=m)` is `m` and `timedelta(days=d)` is `1440 * d`.
  Only order comparisons and monotone shifts occur in the source, so the
  embedding is faithful up to the (order-preserving) choice of unit.
- The database is a list of rows per table.  Django ORM calls become list
  operations: `filter(...).first()` is `List.find?`, `save()` of a fetched
  row updates the row with the same primary key, `create` appends a row
  after checking the declared uniqueness constraints (`token` is globally
  unique, and `unique_together` holds for the `(exam, student)` pair, both
  from `ExamAccessToken.Meta` in models.py).  A constraint violation raises
  `IntegrityError`, which the service's blanket `except` turns into a
  500 result after `transaction.atomic` has rolled the state back; the
  embedding returns the error value together with the *original* state.
- `secrets.token_urlsafe` (the entropy source) and autoincrement ids are
  nondeterministic inputs of the environment; they appear as explicit
  parameters (`fresh`, `newId`) of the issuance operation.
-/

namespace SecureExam

/-- Python `str.strip()` on the character list of a string. -/
def stripChars (cs : List Char) : List Char :=
  ((cs.dropWhile Char.isWhitespace).reverse.dropWhile Char.isWhitespace).reverse

/-- Python `str.strip()`: remove leading and trailing whitespace. -/
def pyStrip (s : String) : String :=
  ⟨stripChars s.data⟩

/-- Row of the `Exam` table (models.py). -/
structure Exam where
  id : Nat
  title : String
  start_time : Int
  end_time : Int
deriving Repr, DecidableEq

/-- Row of Django's `auth.User` table, restricted to the fields the exam
app reads. -/
structure Student where
  id : Nat
  username : String
  first_name : String
  last_name : String
  email : String
deriving Repr, DecidableEq

/-- Row of the `ExamAccessToken` table (models.py). -/
structure AccessToken where
  id : Nat
  exam_id : Nat
  student_id : Nat
  token : String
  is_used : Bool
  valid_from : Int
  valid_until : Int
  created_at : Int
  used_at : Option Int
deriving Repr, DecidableEq

/-- The persistent store: the three tables the core touches. -/
structure DB where
  exams : List Exam
  students : List Student
  tokens : List AccessToken
deriving Repr, DecidableEq

/-- Result dictionary of `ExamTokenService.generate_exam_token`. -/
inductive GenResult where
  | ok (token : String) (valid_until : Int) (status_code : Nat)
  | err (error : String) (status_code : Nat)
deriving Repr, DecidableEq

/-- The `exam` sub-dictionary of a successful validation response. -/
structure ExamSummary where
  title : String
  start_time : Int
  end_time : Int
deriving Repr, DecidableEq

/-- The `student` sub-dictionary of a successful validation response. -/
structure StudentSummary where
  name : String
  email : String
deriving Repr, DecidableEq

/-- Result dictionary of `ExamTokenService.validate_and_use_token`. -/
inductive ValidateResult where
  | ok (exam : ExamSummary) (student : StudentSummary) (status_code : Nat)
  | err (error : String) (status_code : Nat)
deriving Repr, DecidableEq

/-- Whether a validation result is the success dictionary. -/
def ValidateResult.isOk : ValidateResult → Bool
  | .ok _ _ _ => true
  | .err _ _ => false

/-- Student display name: `f"{first_name} {last_name}".strip() or username`
(services.py line 227). -/
def studentName (s : Student) : String :=
  let full := pyStrip (s.first_name ++ " " ++ s.last_name)
  if full = "" then s.username else full

/-- Update the row with primary key `tid` by `g`, leaving other rows
unchanged: the effect of `obj.save()` on a fetched row. -/
def updateById (ts : List AccessToken) (tid : Nat) (g : AccessToken → AccessToken) :
    List AccessToken :=
  ts.map (fun t => if t.id = tid then g t else t)

/-- Mark a token consumed at instant `now`: `is_used = True; used_at = now`. -/
def consumeAt (now : Int) (t : AccessToken) : AccessToken :=
  { t with is_used := true, used_at := some now }

/-- The `ExamAccessToken.objects.create(...)` step of
`generate_exam_token` (services.py lines 116-132) together with the
uniqueness constraints of `ExamAccessToken.Meta` (models.py): inserting a
row violating either the global `token` uniqueness or the
`(exam, student)` `unique_together` raises `IntegrityError`; the
surrounding `transaction.atomic` then rolls back every staged write and
the blanket `except` returns the 500 dictionary, so the store reverts to
`orig`.  (`self.clean()` in `save` also raises when the validity window is
empty; that path is likewise normalized to 500.) -/
def insertToken (orig : DB) (staged : List AccessToken) (now : Int) (fresh : String)
    (newId : Nat) (exam_id student_id : Nat) (valid_minutes : Int) : GenResult × DB :=
  if staged.any (fun t => t.token == fresh) then
    (.err "An unexpected error occurred while generating token" 500, orig)
  else if staged.any (fun t => t.exam_id == exam_id && t.student_id == student_id) then
    (.err "An unexpected error occurred while generating token" 500, orig)
  else if now + valid_minutes ≤ now then
    (.err "An unexpected error occurred while generating token" 500, orig)
  else
    (.ok fresh (now + valid_minutes) 201,
     { orig with tokens := staged ++
        [{ id := newId, exam_id := exam_id, student_id := student_id,
           token := fresh, is_used := false,
           valid_from := now, valid_until := now + valid_minutes,
           created_at := now, used_at := none }] })

/-- `ExamTokenService.generate_exam_token` (services.py lines 33-140).
`now` is `timezone.now()`, `fresh` the value drawn from
`generate_secure_token()`, and `newId` the store-assigned surrogate id of
the row the call would insert. -/
def generate_exam_token (db : DB) (now : Int) (fresh : String) (newId : Nat)
    (exam_id student_id : Nat) (valid_minutes : Int) (regenerate : Bool) :
    GenResult × DB :=
  if valid_minutes ≤ 0 then
    (.err "Invalid input (e.g., negative valid_minutes)" 400, db)
  else if valid_minutes > 1440 then
    (.err "Maximum allowed validity is 1440 minutes (24 hours)" 400, db)
  else
    match db.exams.find? (fun e => e.id == exam_id) with
    | none => (.err "Invalid exam or student" 400, db)
    | some _ =>
      match db.students.find? (fun s => s.id == student_id) with
      | none => (.err "Invalid exam or student" 400, db)
      | some _ =>
        match db.tokens.find? (fun t => t.exam_id == exam_id && t.student_id == student_id) with
        | some existing =>
          if regenerate then
            insertToken db (updateById db.tokens existing.id (fun t => { t with is_used := true }))
              now fresh newId exam_id student_id valid_minutes
          else
            (.err "Token already exists for this student and exam" 400, db)
        | none =>
          insertToken db db.tokens now fresh newId exam_id student_id valid_minutes

/-- `ExamTokenService.validate_and_use_token` (services.py lines 142-239).
The `select_related` joins to `exam` and `student` are the two `find?`
lookups in the success branch; foreign-key integrity makes the 500 fallback
unreachable on well-formed stores. -/
def validate_and_use_token (db : DB) (now : Int) (token : String) :
    ValidateResult × DB :=
  if pyStrip token = "" then
    (.err "Token is required" 400, db)
  else
    match db.tokens.find? (fun t => t.token == pyStrip token) with
    | none => (.err "Invalid token" 403, db)
    | some tobj =>
      if tobj.is_used then
        (.err "Token already used" 403, db)
      else if now > tobj.valid_until then
        (.err "This access link has expired" 403, db)
      else if now < tobj.valid_from then
        (.err "This access link is not yet valid" 403, db)
      else
        match db.exams.find? (fun e => e.id == tobj.exam_id),
              db.students.find? (fun s => s.id == tobj.student_id) with
        | some ex, some st =>
          (.ok ⟨ex.title, ex.start_time, ex.end_time⟩ ⟨studentName st, st.email⟩ 200,
           { db with tokens := updateById db.tokens tobj.id (consumeAt now) })
        | _, _ => (.err "An unexpected error occurred while validating token" 500, db)

/-- `ExamTokenService.invalidate_token_on_failed_attempt`
(services.py lines 271-294).  Note the lookup uses the raw presented
string, not the stripped one, and fires only when the matching row is
unused and not expired (`is_expired()` is `now > valid_until`). -/
def invalidate_token_on_failed_attempt (db : DB) (now : Int) (token : String) :
    Bool × DB :=
  match db.tokens.find? (fun t => t.token == token) with
  | none => (false, db)
  | some tobj =>
    if tobj.is_used = false ∧ ¬ now > tobj.valid_until then
      (true, { db with tokens := updateById db.tokens tobj.id (consumeAt now) })
    else
      (false, db)

/-- Expiry predicate used by the cleanup paths: `valid_until < cutoff`. -/
def isExpiredAt (cutoff : Int) (t : AccessToken) : Bool :=
  decide (t.valid_until < cutoff)

/-- `ExamTokenService.cleanup_expired_tokens` (services.py lines 241-269):
one queryset `.delete()` of every row with `valid_until < cutoff`. -/
def cleanup_expired_tokens (db : DB) (now : Int) (days_old : Int) : Nat × DB :=
  let cutoff := if days_old > 0 then now - 1440 * days_old else now
  ((db.tokens.filter (isExpiredAt cutoff)).length,
   { db with tokens := db.tokens.filter (fun t => !isExpiredAt cutoff t) })

/-- Row counts of the individual DELETE statements `cleanup_expired_tokens`
issues, in order: the service performs exactly one queryset `.delete()`
covering the whole expired set (services.py lines 259-263). -/
def cleanup_delete_statements (db : DB) (now : Int) (days_old : Int) : List Nat :=
  let cutoff := if days_old > 0 then now - 1440 * days_old else now
  [(db.tokens.filter (isExpiredAt cutoff)).length]

/-- Response body of a view, reduced to the fields the claims mention. -/
inductive ViewResponse where
  | okData (exam : ExamSummary) (student : StudentSummary) (status_code : Nat)
  | detail (msg : String) (status_code : Nat)
deriving Repr, DecidableEq

/-- View `validate_and_access_exam` (views.py lines 93-121): delegates to
the service, and on the `Invalid token` outcome additionally runs the
defensive `invalidate_token_on_failed_attempt` side effect before
returning the service's error unchanged. -/
def validate_and_access_exam (db : DB) (now : Int) (token : String) :
    ViewResponse × DB :=
  if token = "" then
    (.detail "Token is required" 400, db)
  else
    match validate_and_use_token db now token with
    | (.ok ex st _, db1) => (.okData ex st 200, db1)
    | (.err e code, db1) =>
      if e = "Invalid token" then
        (.detail e code, (invalidate_token_on_failed_attempt db1 now token).2)
      else
        (.detail e code, db1)

/-- Response of the instructor invalidation view. -/
inductive InvalidateResponse where
  | okMsg (status_code : Nat)
  | detail (msg : String) (status_code : Nat)
  | notFound
deriving Repr, DecidableEq

/-- View `invalidate_token` (views.py lines 172-193): fetch by primary
key (404 when absent), reject already-used rows, otherwise flip
`is_used` and set `used_at = now`. -/
def invalidate_token (db : DB) (now : Int) (token_id : Nat) :
    InvalidateResponse × DB :=
  match db.tokens.find? (fun t => t.id == token_id) with
  | none => (.notFound, db)
  | some tobj =>
    if tobj.is_used then
      (.detail "Token is already used" 400, db)
    else
      (.okMsg 200, { db with tokens := updateById db.tokens tobj.id (consumeAt now) })

/-- Delete every row whose id occurs in `ids`
(`ExamAccessToken.objects.filter(id__in=batch_ids).delete()`). -/
def delete_by_ids (ids : List Nat) (ts : List AccessToken) : List AccessToken :=
  ts.filter (fun t => !ids.contains t.id)

/-- The batched deletion loop of the cleanup management command
(cleanup_expired_tokens.py lines 150-171): repeatedly select the first
`batch_size` expired ids and delete them in one transaction, until no
expired row remains.  The `while True` loop is embedded with explicit
fuel; every productive iteration removes at least one row, so
`tokens.length + 1` units of fuel always suffice.  Returns the list of
per-transaction deletion counts and the final table. -/
def command_cleanup_loop : Nat → Nat → Int → List AccessToken → List Nat × List AccessToken
  | 0, _, _, ts => ([], ts)
  | fuel + 1, batch_size, cutoff, ts =>
    let batch_ids := ((ts.filter (isExpiredAt cutoff)).map (fun t => t.id)).take batch_size
    if batch_ids.isEmpty then
      ([], ts)
    else
      let r := command_cleanup_loop fuel batch_size cutoff (delete_by_ids batch_ids ts)
      (batch_ids.length :: r.1, r.2)

/-- `Command.handle` of the cleanup management command, restricted to the
part that mutates the store (cleanup_expired_tokens.py lines 45-171,
with `dry_run=False`, `force=True`). -/
def command_handle (db : DB) (now : Int) (days : Int) (batch_size : Nat) :
    List Nat × DB :=
  let cutoff := if days > 0 then now - 1440 * days else now
  let r := command_cleanup_loop (db.tokens.length + 1) batch_size cutoff db.tokens
  (r.1, { db with tokens := r.2 })

/-- A sequence of Validate calls against the same presented string, run
one after the other at the given instants.  The store serializes racing
`validate_and_use_token` transactions through the row lock taken by
`select_for_update` (services.py lines 167-171), so any concurrent
execution of N calls is observationally one of these serial orders. -/
def validate_calls (db : DB) (times : List Int) (token : String) :
    List ValidateResult × DB :=
  match times with
  | [] => ([], db)
  | n :: rest =>
    let r := validate_and_use_token db n token
    let rs := validate_calls r.2 rest token
    (r.1 :: rs.1, rs.2)

/-- A lifecycle operation of the core, with the environment inputs
(current instant, generated token, fresh surrogate id) made explicit. -/
inductive Op where
  | issue (now : Int) (fresh : String) (newId : Nat) (exam_id student_id : Nat)
      (valid_minutes : Int) (regenerate : Bool)
  | validate (now : Int) (token : String)
  | invalidate (now : Int) (token_id : Nat)
  | defensive (now : Int) (token : String)
  | sweep (now : Int) (days_old : Int)
  | access (now : Int) (token : String)
  | commandSweep (now : Int) (days : Int) (batch_size : Nat)
deriving Repr

/-- State transformer of a lifecycle operation. -/
def Op.apply : Op → DB → DB
  | .issue now fresh newId eid sid vm regen, db =>
      (generate_exam_token db now fresh newId eid sid vm regen).2
  | .validate now tok, db => (validate_and_use_token db now tok).2
  | .invalidate now tid, db => (invalidate_token db now tid).2
  | .defensive now tok, db => (invalidate_token_on_failed_attempt db now tok).2
  | .sweep now d, db => (cleanup_expired_tokens db now d).2
  | .access now tok, db => (validate_and_access_exam db now tok).2
  | .commandSweep now d bs, db => (command_handle db now d bs).2

/-- The `timezone.now()` instant an operation runs at. -/
def Op.now : Op → Int
  | .issue now _ _ _ _ _ _ => now
  | .validate now _ => now
  | .invalidate now _ => now
  | .defensive now _ => now
  | .sweep now _ => now
  | .access now _ => now
  | .commandSweep now _ _ => now

/-- Discipline of the `used_at` field across one state transition at
instant `now`: every surviving row either kept its `is_used`/`used_at`
fields, or flipped `is_used` from false to true while setting
`used_at := now` in the same step, or is a freshly created row that is
unused with a null `used_at`. -/
def UsedAtStep (pre post : List AccessToken) (now : Int) : Prop :=
  ∀ c' ∈ post,
    (∃ c ∈ pre, c.id = c'.id ∧
      ((c'.is_used = c.is_used ∧ c'.used_at = c.used_at) ∨
       (c.is_used = false ∧ c'.is_used = true ∧ c'.used_at = some now)))
    ∨ (c'.is_used = false ∧ c'.used_at = none)

/-- Strengthening of `UsedAtStep` for operations that create no row:
every row of the post state descends from a row of the pre state. -/
def UsedAtStrict (pre post : List AccessToken) (now : Int) : Prop :=
  ∀ c' ∈ post, ∃ c ∈ pre, c.id = c'.id ∧
    ((c'.is_used = c.is_used ∧ c'.used_at = c.used_at) ∨
     (c.is_used = false ∧ c'.is_used = true ∧ c'.used_at = some now))

/-- Two exams used by the concrete witnesses. -/
def exExam : Exam := ⟨1, "Algorithms Final", 1000, 1120⟩

/-- Second exam fixture. -/
def exExam2 : Exam := ⟨2, "Databases Final", 1000, 1120⟩

/-- First student fixture. -/
def exStudent : Student := ⟨1, "alice", "Alice", "Lee", "alice@example.org"⟩

/-- Second student fixture, with empty name components. -/
def exStudent2 : Student := ⟨2, "bob", "", "", "bob@example.org"⟩

/-- A live credential for the pair (exam 1, student 1). -/
def exToken : AccessToken := ⟨1, 1, 1, "oldtok", false, 100, 160, 100, none⟩

/-- Store fixture: two exams, two students, one live credential. -/
def exDb : DB := ⟨[exExam, exExam2], [exStudent, exStudent2], [exToken]⟩

/-- Store fixture with two expired credentials (ids 1 and 2) and one
live credential (id 3) at instant 100. -/
def exDbExpired : DB := ⟨[exExam], [exStudent],
  [⟨1, 1, 1, "t1", false, 0, 50, 0, none⟩,
   ⟨2, 1, 2, "t2", true, 0, 60, 0, some 10⟩,
   ⟨3, 1, 3, "t3", false, 0, 200, 0, none⟩]⟩

/-! Helper lemmas about the store embedding. -/

/-- In a table whose ids are distinct, two rows with the same id are the
same row. -/
theorem mem_eq_of_nodup_ids {ts : List AccessToken}
    (h : (ts.map (fun t => t.id)).Nodup) {c d : AccessToken}
    (hc : c ∈ ts) (hd : d ∈ ts) (hid : c.id = d.id) : c = d :=
  List.inj_on_of_nodup_map h hc hd hid

/-- A `filter(key=x).first()` lookup on a column with distinct values
returns exactly the row known to carry the value. -/
theorem find?_eq_some_of_mem_key {α κ : Type} [BEq κ] [LawfulBEq κ]
    (f : α → κ) {l : List α} (hnd : (l.map f).Nodup) {c : α} {x : κ}
    (hc : c ∈ l) (hx : f c = x) :
    l.find? (fun t => f t == x) = some c := by
  induction l with
  | nil => cases hc
  | cons a l ih =>
    simp only [List.map_cons, List.nodup_cons] at hnd
    rcases List.mem_cons.mp hc with rfl | hmem
    · simp [List.find?_cons, hx]
    · have hne : (f a == x) = false := by
        rw [beq_eq_false_iff_ne]
        intro he
        exact hnd.1 (he ▸ hx ▸ List.mem_map_of_mem f hmem)
      simp [List.find?_cons, hne, ih hnd.2 hmem]

/-- Saving a row leaves every column untouched that the save callback
preserves, so the projections of the table are unchanged. -/
theorem updateById_map_field {α : Type} {ts : List AccessToken} {tid : Nat}
    {g : AccessToken → AccessToken} (f : AccessToken → α)
    (hg : ∀ t, f (g t) = f t) :
    (updateById ts tid g).map f = ts.map f := by
  simp only [updateById, List.map_map]
  apply List.map_congr_left
  intro a _
  by_cases h : a.id = tid <;> simp [Function.comp, h, hg]

/-- Rows of an updated table come from rows of the original table. -/
theorem mem_updateById {ts : List AccessToken} {tid : Nat}
    {g : AccessToken → AccessToken} {c' : AccessToken}
    (h : c' ∈ updateById ts tid g) :
    ∃ c ∈ ts, c' = if c.id = tid then g c else c := by
  obtain ⟨c, hc, he⟩ := List.mem_map.mp h
  exact ⟨c, hc, he.symm⟩

/-- The image of a row is a member of the updated table. -/
theorem updateById_mem_of_mem {ts : List AccessToken} {tid : Nat}
    {g : AccessToken → AccessToken} {c : AccessToken} (hc : c ∈ ts) :
    (if c.id = tid then g c else c) ∈ updateById ts tid g :=
  List.mem_map_of_mem _ hc

/-! C10 — error outcomes of `validate_and_use_token` leave the store
unchanged. -/

/-- Every error path of `validate_and_use_token` returns the input
store. -/
theorem validate_err_snd_eq (db : DB) (now : Int) (token : String)
    (e : String) (code : Nat) (db1 : DB)
    (h : validate_and_use_token db now token = (.err e code, db1)) :
    db1 = db := by
  unfold validate_and_use_token at h
  repeat' split at h
  all_goals simp only [Prod.mk.injEq] at h
  all_goals first
    | exact h.2.symm
    | simp at h

/-- C10: whenever `validate_and_use_token` returns an error result
(Invalid, AlreadyUsed, Expired, NotYetValid — or any other failure), the
store it returns is exactly the store it was given: no credential's
`is_used`, `used_at` or validity window is modified on an error path. -/
theorem c10_error_paths_do_not_mutate (db : DB) (now : Int) (token : String)
    (e : String) (code : Nat) (db1 : DB)
    (h : validate_and_use_token db now token = (.err e code, db1)) :
    db1 = db :=
  validate_err_snd_eq db now token e code db1 h

/-- C10 witness: a concrete error-returning call, with the frame property
obtained by applying the theorem. -/
theorem c10_witness :
    validate_and_use_token exDb 200 "oldtok"
      = (.err "This access link has expired" 403, exDb) ∧
    (validate_and_use_token exDb 200 "oldtok").2 = exDb := by
  refine ⟨by decide, ?_⟩
  have h : validate_and_use_token exDb 200 "oldtok"
      = (.err "This access link has expired" 403,
         (validate_and_use_token exDb 200 "oldtok").2) := by decide
  exact c10_error_paths_do_not_mutate exDb 200 "oldtok" _ _ _ h

/-! C8 — duplicate issuance without regenerate is a Conflict with no
mutation. -/

/-- C8: when the exam and student exist, `valid_minutes` is in [1, 1440],
a credential already exists for the (exam, student) pair and `regenerate`
is false, `generate_exam_token` returns the Conflict error (400) and the
store is returned unchanged: nothing is created and the existing
credential is untouched. -/
theorem c8_duplicate_issue_conflict (db : DB) (now : Int) (fresh : String)
    (newId eid sid : Nat) (vm : Int)
    (h1 : 1 ≤ vm) (h2 : vm ≤ 1440)
    (hex : (db.exams.find? (fun e => e.id == eid)).isSome)
    (hst : (db.students.find? (fun s => s.id == sid)).isSome)
    (hpair : (db.tokens.find? (fun t => t.exam_id == eid && t.student_id == sid)).isSome) :
    generate_exam_token db now fresh newId eid sid vm false
      = (.err "Token already exists for this student and exam" 400, db) := by
  obtain ⟨e, he⟩ := Option.isSome_iff_exists.mp hex
  obtain ⟨s, hs⟩ := Option.isSome_iff_exists.mp hst
  obtain ⟨t, ht⟩ := Option.isSome_iff_exists.mp hpair
  unfold generate_exam_token
  rw [if_neg (by omega), if_neg (by omega), he, hs, ht]
  rfl

/-- C8 witness: issuing a second credential for the pair (exam 1,
student 1) of the concrete store without `regenerate`. -/
theorem c8_witness :
    (1 : Int) ≤ 30 ∧ (30 : Int) ≤ 1440 ∧
    (exDb.exams.find? (fun e => e.id == 1)).isSome ∧
    (exDb.students.find? (fun s => s.id == 1)).isSome ∧
    (exDb.tokens.find? (fun t => t.exam_id == 1 && t.student_id == 1)).isSome ∧
    generate_exam_token exDb 120 "freshtok" 2 1 1 30 false
      = (.err "Token already exists for this student and exam" 400, exDb) :=
  ⟨by decide, by decide, by decide, by decide, by decide,
   c8_duplicate_issue_conflict exDb 120 "freshtok" 2 1 1 30
     (by decide) (by decide) (by decide) (by decide) (by decide)⟩

/-! C2 — regeneration is broken by the (exam, student) uniqueness
constraint. -/

/-- C2: the claim says Issue with `regenerate=true` on a pair with a live
credential succeeds, superseding the old credential and returning a new
one.  In the code the superseded row is only marked `is_used=true`, never
deleted, so inserting the replacement row violates the
`unique_together [exam, student]` constraint of `ExamAccessToken.Meta`
(models.py lines 144-146): the insert raises `IntegrityError`, the
transaction rolls back (undoing the `is_used` flip), and the service
returns the Internal 500 dictionary.  Evaluated here on the concrete
store: exam 1 and student 1 exist, a live credential exists for the pair,
and the fresh token is distinct from every stored token, yet the call
fails with 500 and the store is returned exactly as it was. -/
theorem c2_regenerate_always_fails_internal :
    generate_exam_token exDb 120 "freshtok" 2 1 1 30 true
      = (.err "An unexpected error occurred while generating token" 500, exDb) ∧
    (∀ t ∈ exDb.tokens, t.token ≠ "freshtok") := by
  constructor
  · decide
  · decide

/-! C4 — there is no retry on token-uniqueness collisions. -/

/-- C4 counterexample: a fresh issuance (exam 2, student 2, no prior
credential for that pair) whose single generated token collides with the
stored token of another credential.  The claim says the service retries
generation and does not fail Internal on the first collision; the code
has no retry loop, so the very first collision surfaces as the
Internal 500 result. -/
theorem c4_counterexample_first_collision :
    (∃ t ∈ exDb.tokens, t.token = "oldtok") ∧
    generate_exam_token exDb 120 "oldtok" 2 2 2 30 false
      = (.err "An unexpected error occurred while generating token" 500, exDb) := by
  constructor
  · decide
  · decide

/-- C4 amended: if the single freshly generated token collides with the
global token-uniqueness constraint, `generate_exam_token` fails with
Internal (500) immediately on that first collision — it performs no
retry — and the store is returned unchanged. -/
theorem c4_collision_fails_internal_immediately (db : DB) (now : Int)
    (fresh : String) (newId eid sid : Nat) (vm : Int)
    (h1 : 1 ≤ vm) (h2 : vm ≤ 1440)
    (hex : (db.exams.find? (fun e => e.id == eid)).isSome)
    (hst : (db.students.find? (fun s => s.id == sid)).isSome)
    (hpair : db.tokens.find? (fun t => t.exam_id == eid && t.student_id == sid) = none)
    (hcol : db.tokens.any (fun t => t.token == fresh) = true) :
    generate_exam_token db now fresh newId eid sid vm false
      = (.err "An unexpected error occurred while generating token" 500, db) := by
  obtain ⟨e, he⟩ := Option.isSome_iff_exists.mp hex
  obtain ⟨s, hs⟩ := Option.isSome_iff_exists.mp hst
  unfold generate_exam_token insertToken
  rw [if_neg (by omega), if_neg (by omega), he, hs, hpair]
  simp only [hcol, if_true]

/-- C4 witness: the amended theorem applied to the concrete collision. -/
theorem c4_witness :
    (1 : Int) ≤ 30 ∧ (30 : Int) ≤ 1440 ∧
    (exDb.exams.find? (fun e => e.id == 2)).isSome ∧
    (exDb.students.find? (fun s => s.id == 2)).isSome ∧
    exDb.tokens.find? (fun t => t.exam_id == 2 && t.student_id == 2) = none ∧
    exDb.tokens.any (fun t => t.token == "oldtok") = true ∧
    generate_exam_token exDb 120 "oldtok" 7 2 2 30 false
      = (.err "An unexpected error occurred while generating token" 500, exDb) :=
  ⟨by decide, by decide, by decide, by decide, by decide, by decide,
   c4_collision_fails_internal_immediately exDb 120 "oldtok" 7 2 2 30
     (by decide) (by decide) (by decide) (by decide) (by decide) (by decide)⟩

/-! C3 — the validation decision order. -/

/-- C3 counterexample: the claim states that for every Validate call, a
presented string matched by no stored credential yields the `Invalid`
error.  The blank string is matched by no stored credential of the
concrete store, yet the call returns the input-validation error
`Token is required` with status 400, not `Invalid token` with 403. -/
theorem c3_counterexample_blank_token :
    exDb.tokens.find? (fun t => t.token == pyStrip "   ") = none ∧
    validate_and_use_token exDb 120 "   " = (.err "Token is required" 400, exDb) ∧
    ValidateResult.err "Token is required" 400 ≠ ValidateResult.err "Invalid token" 403 := by
  refine ⟨by decide, by decide, by decide⟩

/-- C3 amended: for every Validate call whose presented string is
nonblank after trimming, the outcome is decided in this order — no
stored credential matches the trimmed token → Invalid; else `is_used` →
AlreadyUsed; else `now > valid_until` → Expired; else `now < valid_from`
→ NotYetValid; otherwise the call marks the credential used at `now` and
returns the exam's title/start/end and the student's name/email.  Error
outcomes leave the store unchanged. -/
theorem c3_decision_order (db : DB) (now : Int) (token : String)
    (hnb : pyStrip token ≠ "") :
    (db.tokens.find? (fun t => t.token == pyStrip token) = none →
       validate_and_use_token db now token = (.err "Invalid token" 403, db)) ∧
    (∀ tobj, db.tokens.find? (fun t => t.token == pyStrip token) = some tobj →
      (tobj.is_used = true →
         validate_and_use_token db now token = (.err "Token already used" 403, db)) ∧
      (tobj.is_used = false → now > tobj.valid_until →
         validate_and_use_token db now token
           = (.err "This access link has expired" 403, db)) ∧
      (tobj.is_used = false → ¬ now > tobj.valid_until → now < tobj.valid_from →
         validate_and_use_token db now token
           = (.err "This access link is not yet valid" 403, db)) ∧
      (tobj.is_used = false → ¬ now > tobj.valid_until → ¬ now < tobj.valid_from →
         (db.exams.map (fun e => e.id)).Nodup →
         (db.students.map (fun s => s.id)).Nodup →
         ∀ ex, ex ∈ db.exams → ex.id = tobj.exam_id →
         ∀ st, st ∈ db.students → st.id = tobj.student_id →
         validate_and_use_token db now token
           = (.ok ⟨ex.title, ex.start_time, ex.end_time⟩
                  ⟨studentName st, st.email⟩ 200,
              { db with tokens := updateById db.tokens tobj.id (consumeAt now) }))) := by
  constructor
  · intro hnone
    unfold validate_and_use_token
    rw [if_neg hnb, hnone]
  · intro tobj hfind
    refine ⟨?_, ?_, ?_, ?_⟩
    · intro hused
      unfold validate_and_use_token
      rw [if_neg hnb, hfind]
      simp [hused]
    · intro hused hexp
      unfold validate_and_use_token
      rw [if_neg hnb, hfind]
      simp [hused, hexp]
    · intro hused hexp hearly
      unfold validate_and_use_token
      rw [if_neg hnb, hfind]
      simp [hused, hexp, hearly]
    · intro hused hexp hearly hexids hstids ex hex hexid st hst hstid
      unfold validate_and_use_token
      rw [if_neg hnb, hfind]
      simp only [hused, Bool.false_eq_true, if_false, if_neg hexp, if_neg hearly]
      rw [find?_eq_some_of_mem_key (fun e => e.id) hexids hex hexid,
          find?_eq_some_of_mem_key (fun s => s.id) hstids hst hstid]

/-- C3 witness: the amended theorem applied to the concrete store, in the
success branch, with every hypothesis discharged at the concrete input. -/
theorem c3_witness :
    pyStrip " oldtok " ≠ "" ∧
    exDb.tokens.find? (fun t => t.token == pyStrip " oldtok ") = some exToken ∧
    validate_and_use_token exDb 120 " oldtok "
      = (.ok ⟨exExam.title, exExam.start_time, exExam.end_time⟩
             ⟨studentName exStudent, exStudent.email⟩ 200,
         { exDb with tokens := updateById exDb.tokens exToken.id (consumeAt 120) }) :=
  ⟨by decide, by decide,
   ((c3_decision_order exDb 120 " oldtok " (by decide)).2 exToken (by decide)).2.2.2
     (by decide) (by decide) (by decide) (by decide) (by decide)
     exExam (by decide) (by decide) exStudent (by decide) (by decide)⟩

/-! C6 — Sweep deletes exactly the expired credentials and is
idempotent. -/

/-- C6: for every store and every nonnegative day count `d`,
`cleanup_expired_tokens` deletes exactly the credentials with
`valid_until < now - d days` (regardless of `is_used`), returns their
count, leaves every other credential (and the other tables) unchanged,
and a second run at the same instant deletes 0. -/
theorem c6_sweep_exactly_expired (db : DB) (now d : Int) (hd : 0 ≤ d) :
    (cleanup_expired_tokens db now d).1
        = (db.tokens.filter (isExpiredAt (now - 1440 * d))).length ∧
    (cleanup_expired_tokens db now d).2.tokens
        = db.tokens.filter (fun t => !isExpiredAt (now - 1440 * d) t) ∧
    (cleanup_expired_tokens db now d).2.exams = db.exams ∧
    (cleanup_expired_tokens db now d).2.students = db.students ∧
    (cleanup_expired_tokens (cleanup_expired_tokens db now d).2 now d).1 = 0 := by
  have hcut : (if d > 0 then now - 1440 * d else now) = now - 1440 * d := by
    rcases lt_or_eq_of_le hd with h | h
    · rw [if_pos h]
    · rw [if_neg (by omega)]
      omega
  have hnil : ∀ l : List AccessToken,
      (l.filter (fun t => !isExpiredAt (now - 1440 * d) t)).filter
        (isExpiredAt (now - 1440 * d)) = [] := by
    intro l
    rw [List.filter_filter]
    simp
  simp only [cleanup_expired_tokens, hcut]
  refine ⟨trivial, trivial, trivial, trivial, ?_⟩
  rw [hnil]
  rfl

/-- C6 witness: at instant 100 with `d = 0`, the concrete store loses
exactly its two expired credentials, the live one survives, and the
second sweep deletes 0. -/
theorem c6_witness :
    (0 : Int) ≤ 0 ∧
    (cleanup_expired_tokens exDbExpired 100 0).1
        = (exDbExpired.tokens.filter (isExpiredAt (100 - 1440 * 0))).length ∧
    (cleanup_expired_tokens exDbExpired 100 0).2.tokens
        = exDbExpired.tokens.filter (fun t => !isExpiredAt (100 - 1440 * 0) t) ∧
    (cleanup_expired_tokens exDbExpired 100 0).2.exams = exDbExpired.exams ∧
    (cleanup_expired_tokens exDbExpired 100 0).2.students = exDbExpired.students ∧
    (cleanup_expired_tokens (cleanup_expired_tokens exDbExpired 100 0).2 100 0).1 = 0 :=
  ⟨by decide, c6_sweep_exactly_expired exDbExpired 100 0 (by decide)⟩

/-! C9 — the defensive invalidation never masks the Invalid error and
only ever fires on an exact token match. -/

/-- C9: when no stored credential matches the trimmed presented string,
the view always answers `Invalid token` (403) — the defensive
invalidation side effect never changes the response — and the side
effect marks at most a credential whose stored token is exactly equal to
the raw presented string (never a substring or prefix match): every row
of the resulting store either is an unchanged original row or descends
from a row whose token equals the presented string, previously unused,
now consumed at `now`. -/
theorem c9_invalid_exact_only (db : DB) (now : Int) (token : String)
    (hids : (db.tokens.map (fun t => t.id)).Nodup)
    (hnb : pyStrip token ≠ "")
    (hnomatch : db.tokens.find? (fun t => t.token == pyStrip token) = none) :
    (validate_and_access_exam db now token).1 = .detail "Invalid token" 403 ∧
    (validate_and_access_exam db now token).2.exams = db.exams ∧
    (validate_and_access_exam db now token).2.students = db.students ∧
    ∀ c' ∈ (validate_and_access_exam db now token).2.tokens,
      c' ∈ db.tokens ∨
      ∃ c ∈ db.tokens, c.token = token ∧ c.is_used = false ∧ c' = consumeAt now c := by
  have htok : token ≠ "" := fun he => hnb (by rw [he]; rfl)
  have hval : validate_and_use_token db now token = (.err "Invalid token" 403, db) := by
    unfold validate_and_use_token
    rw [if_neg hnb, hnomatch]
  have hview : validate_and_access_exam db now token
      = (.detail "Invalid token" 403, (invalidate_token_on_failed_attempt db now token).2) := by
    unfold validate_and_access_exam
    rw [if_neg htok, hval]
    rfl
  have hdef : (invalidate_token_on_failed_attempt db now token).2 = db ∨
      ∃ tobj ∈ db.tokens, tobj.token = token ∧ tobj.is_used = false ∧
        (invalidate_token_on_failed_attempt db now token).2
          = { db with tokens := updateById db.tokens tobj.id (consumeAt now) } := by
    unfold invalidate_token_on_failed_attempt
    split
    · exact Or.inl rfl
    · rename_i tobj hfind
      split
      · rename_i hcond
        have hp : tobj.token = token := by
          have h2 := List.find?_some hfind
          simp only [beq_iff_eq] at h2
          exact h2
        exact Or.inr ⟨tobj, List.mem_of_find?_eq_some hfind, hp, hcond.1, rfl⟩
      · exact Or.inl rfl
  rw [hview]
  rcases hdef with h | ⟨tobj, hmem, httok, hunused, h⟩
  · rw [h]
    exact ⟨rfl, rfl, rfl, fun c' hc' => Or.inl hc'⟩
  · rw [h]
    refine ⟨rfl, rfl, rfl, ?_⟩
    intro c' hc'
    obtain ⟨c, hc, he⟩ := mem_updateById hc'
    by_cases hid : c.id = tobj.id
    · right
      have hceq : c = tobj := mem_eq_of_nodup_ids hids hc hmem hid
      refine ⟨tobj, hmem, httok, hunused, ?_⟩
      rw [he, hceq, if_pos rfl]
    · left
      rw [he, if_neg hid]
      exact hc

/-- C9 witness: a well-formed but unknown token presented to the view of
the concrete store, whose raw form (with surrounding whitespace) matches
no stored credential either; the response is `Invalid token` and every
credential survives unchanged. -/
theorem c9_witness :
    (exDb.tokens.map (fun t => t.id)).Nodup ∧
    pyStrip "garbage" ≠ "" ∧
    exDb.tokens.find? (fun t => t.token == pyStrip "garbage") = none ∧
    ((validate_and_access_exam exDb 120 "garbage").1 = .detail "Invalid token" 403 ∧
     (validate_and_access_exam exDb 120 "garbage").2.exams = exDb.exams ∧
     (validate_and_access_exam exDb 120 "garbage").2.students = exDb.students ∧
     ∀ c' ∈ (validate_and_access_exam exDb 120 "garbage").2.tokens,
       c' ∈ exDb.tokens ∨
       ∃ c ∈ exDb.tokens, c.token = "garbage" ∧ c.is_used = false ∧
         c' = consumeAt 120 c) :=
  ⟨by decide, by decide, by decide,
   c9_invalid_exact_only exDb 120 "garbage" (by decide) (by decide) (by decide)⟩

/-! C1 — across any serial order of N Validate calls on the same live
token, exactly one succeeds. -/

/-- A Validate call on a live, in-window credential succeeds and consumes
exactly that credential's row. -/
theorem validate_success_eq (db : DB) (now : Int) (token : String)
    (c : AccessToken)
    (htoks : (db.tokens.map (fun t => t.token)).Nodup)
    (hc : c ∈ db.tokens) (htok : c.token = pyStrip token)
    (hnb : pyStrip token ≠ "")
    (hunused : c.is_used = false)
    (hexp : ¬ now > c.valid_until) (hearly : ¬ now < c.valid_from)
    (hex : (db.exams.find? (fun e => e.id == c.exam_id)).isSome)
    (hst : (db.students.find? (fun s => s.id == c.student_id)).isSome) :
    ∃ ex st, validate_and_use_token db now token
      = (.ok ex st 200, { db with tokens := updateById db.tokens c.id (consumeAt now) }) := by
  obtain ⟨e, he⟩ := Option.isSome_iff_exists.mp hex
  obtain ⟨s, hs⟩ := Option.isSome_iff_exists.mp hst
  have hfind := find?_eq_some_of_mem_key (fun t => t.token) htoks hc htok
  refine ⟨⟨e.title, e.start_time, e.end_time⟩, ⟨studentName s, s.email⟩, ?_⟩
  unfold validate_and_use_token
  rw [if_neg hnb, hfind]
  simp only [hunused, Bool.false_eq_true, if_false, if_neg hexp, if_neg hearly, he, hs]

/-- A Validate call presenting the token of an already-consumed credential
reports AlreadyUsed and leaves the store unchanged. -/
theorem validate_already_used_eq (db : DB) (now : Int) (token : String)
    (c : AccessToken)
    (htoks : (db.tokens.map (fun t => t.token)).Nodup)
    (hc : c ∈ db.tokens) (htok : c.token = pyStrip token)
    (hnb : pyStrip token ≠ "")
    (hused : c.is_used = true) :
    validate_and_use_token db now token = (.err "Token already used" 403, db) := by
  have hfind := find?_eq_some_of_mem_key (fun t => t.token) htoks hc htok
  unfold validate_and_use_token
  rw [if_neg hnb, hfind]
  simp only [hused, if_true]

/-- Once the credential is consumed, every further Validate call in the
sequence reports AlreadyUsed and the store no longer changes. -/
theorem validate_calls_all_used (times : List Int) (db : DB) (token : String)
    (c : AccessToken)
    (htoks : (db.tokens.map (fun t => t.token)).Nodup)
    (hc : c ∈ db.tokens) (htok : c.token = pyStrip token)
    (hnb : pyStrip token ≠ "")
    (hused : c.is_used = true) :
    validate_calls db times token
      = (times.map (fun _ => ValidateResult.err "Token already used" 403), db) := by
  induction times with
  | nil => rfl
  | cons n rest ih =>
    unfold validate_calls
    rw [validate_already_used_eq db n token c htoks hc htok hnb hused]
    simp only [ih, List.map_cons]

/-- C1: for every live credential and every nonempty serial order of
Validate calls presenting its token at instants inside the validity
window, exactly one call returns success; every other call returns the
AlreadyUsed terminal error and never success; and the credential ends
consumed (`is_used` flipped). -/
theorem c1_exactly_one_success (db : DB) (times : List Int) (token : String)
    (c : AccessToken)
    (htoks : (db.tokens.map (fun t => t.token)).Nodup)
    (hc : c ∈ db.tokens) (htok : c.token = pyStrip token)
    (hnb : pyStrip token ≠ "")
    (hunused : c.is_used = false)
    (hex : (db.exams.find? (fun e => e.id == c.exam_id)).isSome)
    (hst : (db.students.find? (fun s => s.id == c.student_id)).isSome)
    (htimes : ∀ n ∈ times, c.valid_from ≤ n ∧ n ≤ c.valid_until)
    (hne : times ≠ []) :
    ((validate_calls db times token).1.countP (fun r => r.isOk) = 1) ∧
    (∀ r ∈ (validate_calls db times token).1,
        r.isOk = true ∨ r = .err "Token already used" 403) ∧
    (∃ c' ∈ (validate_calls db times token).2.tokens,
        c'.id = c.id ∧ c'.is_used = true) := by
  cases times with
  | nil => exact absurd rfl hne
  | cons n rest =>
    have hbound := htimes n (List.mem_cons_self n rest)
    have hexp : ¬ n > c.valid_until := by omega
    have hearly : ¬ n < c.valid_from := by omega
    obtain ⟨ex, st, hsucc⟩ :=
      validate_success_eq db n token c htoks hc htok hnb hunused hexp hearly hex hst
    have hc1mem : consumeAt n c ∈ updateById db.tokens c.id (consumeAt n) := by
      have h := @updateById_mem_of_mem db.tokens c.id (consumeAt n) c hc
      rwa [if_pos rfl] at h
    have htoks1 : ((updateById db.tokens c.id (consumeAt n)).map (fun t => t.token)).Nodup := by
      rw [@updateById_map_field String db.tokens c.id (consumeAt n) (fun t => t.token)
        (fun t => rfl)]
      exact htoks
    have hcalls := validate_calls_all_used rest
      { db with tokens := updateById db.tokens c.id (consumeAt n) } token
      (consumeAt n c) htoks1 hc1mem htok hnb rfl
    unfold validate_calls
    rw [hsucc]
    simp only [hcalls]
    refine ⟨?_, ?_, ?_⟩
    · have hz : (rest.map (fun _ => ValidateResult.err "Token already used" 403)).countP
          (fun r => r.isOk) = 0 := by
        apply List.countP_eq_zero.mpr
        intro r hr
        obtain ⟨_, _, hr'⟩ := List.mem_map.mp hr
        rw [← hr']
        simp [ValidateResult.isOk]
      simp [List.countP_cons, hz, ValidateResult.isOk]
    · intro r hr
      rcases List.mem_cons.mp hr with rfl | hr'
      · exact Or.inl rfl
      · obtain ⟨_, _, hr''⟩ := List.mem_map.mp hr'
        exact Or.inr hr''.symm
    · exact ⟨consumeAt n c, hc1mem, rfl, rfl⟩

/-- C1 witness: two Validate calls at instants 120 and 130 on the live
credential of the concrete store. -/
theorem c1_witness :
    (exDb.tokens.map (fun t => t.token)).Nodup ∧
    exToken ∈ exDb.tokens ∧
    exToken.token = pyStrip " oldtok " ∧
    (∀ n ∈ [(120 : Int), 130], exToken.valid_from ≤ n ∧ n ≤ exToken.valid_until) ∧
    (((validate_calls exDb [120, 130] " oldtok ").1.countP (fun r => r.isOk) = 1) ∧
     (∀ r ∈ (validate_calls exDb [120, 130] " oldtok ").1,
         r.isOk = true ∨ r = .err "Token already used" 403) ∧
     (∃ c' ∈ (validate_calls exDb [120, 130] " oldtok ").2.tokens,
         c'.id = exToken.id ∧ c'.is_used = true)) :=
  ⟨by decide, by decide, by decide, by decide,
   c1_exactly_one_success exDb [120, 130] " oldtok " exToken
     (by decide) (by decide) (by decide) (by decide) (by decide)
     (by decide) (by decide) (by decide) (by decide)⟩

/-! C7 — batching of the expiry sweep. -/

/-- Deleting the first `bs` ids of a duplicate-free table keeps exactly
the rows after position `bs`. -/
theorem filter_not_mem_take_ids (l : List AccessToken) (bs : Nat)
    (h : (l.map (fun t => t.id)).Nodup) :
    l.filter (fun t => !((l.map (fun t => t.id)).take bs).contains t.id)
      = l.drop bs := by
  induction l generalizing bs with
  | nil => simp
  | cons c l ih =>
    cases bs with
    | zero => simp
    | succ m =>
      simp only [List.map_cons, List.nodup_cons] at h
      simp only [List.map_cons, List.take_succ_cons, List.filter_cons, List.contains_cons,
        beq_self_eq_true, Bool.true_or, Bool.not_true, Bool.false_eq_true, if_false,
        List.drop_succ_cons]
      have hcongr : ∀ t ∈ l,
          (!(t.id == c.id || ((l.map (fun t => t.id)).take m).contains t.id))
            = (!((l.map (fun t => t.id)).take m).contains t.id) := by
        intro t ht
        have hne : (t.id == c.id) = false := by
          rw [beq_eq_false_iff_ne]
          intro he
          exact h.1 (he ▸ List.mem_map_of_mem (fun t => t.id) ht)
        rw [hne, Bool.false_or]
      rw [List.filter_congr hcongr, ih m h.2]

/-- After deleting one batch, the remaining expired rows are exactly the
expired rows after the batch. -/
theorem expired_after_delete (ts : List AccessToken) (cutoff : Int) (bs : Nat)
    (hids : (ts.map (fun t => t.id)).Nodup) :
    (delete_by_ids (((ts.filter (isExpiredAt cutoff)).map (fun t => t.id)).take bs) ts).filter
        (isExpiredAt cutoff)
      = (ts.filter (isExpiredAt cutoff)).drop bs := by
  unfold delete_by_ids
  rw [List.filter_comm]
  apply filter_not_mem_take_ids
  exact ((List.filter_sublist ts).map (fun t => t.id)).nodup hids

/-- Deleting a batch of expired ids leaves the unexpired rows
untouched. -/
theorem survivors_after_delete (ts : List AccessToken) (cutoff : Int) (bs : Nat)
    (hids : (ts.map (fun t => t.id)).Nodup) :
    (delete_by_ids (((ts.filter (isExpiredAt cutoff)).map (fun t => t.id)).take bs) ts).filter
        (fun t => !isExpiredAt cutoff t)
      = ts.filter (fun t => !isExpiredAt cutoff t) := by
  unfold delete_by_ids
  rw [List.filter_comm]
  apply List.filter_eq_self.mpr
  intro t ht
  have hmem := List.mem_filter.mp ht
  rw [Bool.not_eq_true']  -- goal: contains = false
  rw [← Bool.not_eq_true]
  intro hcontains
  have hin : t.id ∈ ((ts.filter (isExpiredAt cutoff)).map (fun t => t.id)).take bs :=
    List.elem_iff.mp hcontains
  have hin2 : t.id ∈ (ts.filter (isExpiredAt cutoff)).map (fun t => t.id) :=
    (List.take_sublist bs _).mem hin
  obtain ⟨u, hu, huid⟩ := List.mem_map.mp hin2
  have humem := List.mem_filter.mp hu
  have hut : u = t := mem_eq_of_nodup_ids hids humem.1 hmem.1 huid
  rw [hut] at humem
  rw [humem.2] at hmem
  simp at hmem

/-- Deleting rows preserves distinctness of ids. -/
theorem nodup_ids_delete_by_ids (ids : List Nat) (ts : List AccessToken)
    (hids : (ts.map (fun t => t.id)).Nodup) :
    ((delete_by_ids ids ts).map (fun t => t.id)).Nodup :=
  ((List.filter_sublist ts).map (fun t => t.id)).nodup hids

/-- Specification of the command's deletion loop: with positive batch
size, distinct ids and enough fuel, every recorded batch deletes between
1 and `bs` rows, the batch sizes sum to the number of expired rows, and
the final table holds exactly the unexpired rows. -/
theorem command_cleanup_loop_spec (bs : Nat) (hbs : 1 ≤ bs) (cutoff : Int) :
    ∀ fuel ts, (ts.map (fun t => t.id)).Nodup →
      (ts.filter (isExpiredAt cutoff)).length < fuel →
      (∀ b ∈ (command_cleanup_loop fuel bs cutoff ts).1, 1 ≤ b ∧ b ≤ bs) ∧
      (command_cleanup_loop fuel bs cutoff ts).1.sum
          = (ts.filter (isExpiredAt cutoff)).length ∧
      (command_cleanup_loop fuel bs cutoff ts).2
          = ts.filter (fun t => !isExpiredAt cutoff t) := by
  intro fuel
  induction fuel with
  | zero => intro ts _ h; omega
  | succ m ih =>
    intro ts hids hlt
    by_cases hl : ts.filter (isExpiredAt cutoff) = []
    · have hempty : (((ts.filter (isExpiredAt cutoff)).map (fun t => t.id)).take bs).isEmpty
          = true := by
        simp [hl]
      simp only [command_cleanup_loop, hempty, if_true]
      refine ⟨by simp, by simp [hl], ?_⟩
      have hall := List.filter_eq_nil_iff.mp hl
      symm
      apply List.filter_eq_self.mpr
      intro t ht
      rw [Bool.not_eq_true']
      exact Bool.not_eq_true _ ▸ (fun he => hall t ht he)
    · have hlen : 1 ≤ (ts.filter (isExpiredAt cutoff)).length :=
        List.length_pos.mpr hl
      have hbatchlen : (((ts.filter (isExpiredAt cutoff)).map (fun t => t.id)).take bs).length
          = min bs (ts.filter (isExpiredAt cutoff)).length := by
        rw [List.length_take, List.length_map]
      have hnonempty : (((ts.filter (isExpiredAt cutoff)).map (fun t => t.id)).take bs).isEmpty
          = false := by
        rw [← Bool.not_eq_true, List.isEmpty_iff, ← List.length_eq_zero, hbatchlen]
        omega
      simp only [command_cleanup_loop, hnonempty, Bool.false_eq_true, if_false]
      have hids2 := nodup_ids_delete_by_ids
        (((ts.filter (isExpiredAt cutoff)).map (fun t => t.id)).take bs) ts hids
      have hexp2 : ((delete_by_ids
            (((ts.filter (isExpiredAt cutoff)).map (fun t => t.id)).take bs) ts).filter
          (isExpiredAt cutoff)).length < m := by
        rw [expired_after_delete ts cutoff bs hids, List.length_drop]
        omega
      obtain ⟨ihb, ihsum, ihfinal⟩ := ih _ hids2 hexp2
      refine ⟨?_, ?_, ?_⟩
      · intro b hb
        rcases List.mem_cons.mp hb with rfl | hb'
        · rw [hbatchlen]
          omega
        · exact ihb b hb'
      · rw [List.sum_cons, ihsum, expired_after_delete ts cutoff bs hids,
          List.length_drop, hbatchlen]
        omega
      · rw [ihfinal, survivors_after_delete ts cutoff bs hids]

/-- C7 counterexample: the claim says every Sweep invocation deletes in
bounded batches, each in its own transaction, never as a single
unbounded delete over the whole expired set.  The service-layer Sweep
(`cleanup_expired_tokens`, reached from the HTTP cleanup endpoint)
issues exactly one DELETE statement: on the concrete store holding two
expired credentials its per-statement trace is the single entry `[2]`
covering the entire expired set. -/
theorem c7_counterexample_single_delete :
    (exDbExpired.tokens.filter (isExpiredAt 100)).length = 2 ∧
    cleanup_delete_statements exDbExpired 100 0 = [2] :=
  ⟨by decide, by decide⟩

/-- C7 amended: only the cleanup management command processes deletions
in bounded batches — with a positive configured batch size and
duplicate-free ids, every batch it issues deletes between 1 and
`batch_size` rows in its own transaction, the batches together delete
exactly the expired set, and exactly the unexpired rows survive.  The
service-layer Sweep instead performs one unbounded delete (see the
counterexample). -/
theorem c7_command_sweep_batches (db : DB) (now days : Int) (bs : Nat)
    (hbs : 1 ≤ bs) (hids : (db.tokens.map (fun t => t.id)).Nodup) :
    (∀ b ∈ (command_handle db now days bs).1, 1 ≤ b ∧ b ≤ bs) ∧
    (command_handle db now days bs).1.sum
        = (db.tokens.filter (isExpiredAt (if days > 0 then now - 1440 * days else now))).length ∧
    (command_handle db now days bs).2.tokens
        = db.tokens.filter
            (fun t => !isExpiredAt (if days > 0 then now - 1440 * days else now) t) := by
  have h := command_cleanup_loop_spec bs hbs (if days > 0 then now - 1440 * days else now)
    (db.tokens.length + 1) db.tokens hids
    (Nat.lt_succ_of_le (List.length_filter_le _ _))
  exact ⟨h.1, h.2.1, h.2.2⟩

/-- C7 witness: the command sweep on the concrete store with batch size
1 issues two singleton batches and keeps exactly the live credential. -/
theorem c7_witness :
    1 ≤ 1 ∧
    (exDbExpired.tokens.map (fun t => t.id)).Nodup ∧
    ((∀ b ∈ (command_handle exDbExpired 100 0 1).1, 1 ≤ b ∧ b ≤ 1) ∧
     (command_handle exDbExpired 100 0 1).1.sum
         = (exDbExpired.tokens.filter
             (isExpiredAt (if (0 : Int) > 0 then 100 - 1440 * 0 else 100))).length ∧
     (command_handle exDbExpired 100 0 1).2.tokens
         = exDbExpired.tokens.filter
             (fun t => !isExpiredAt (if (0 : Int) > 0 then 100 - 1440 * 0 else 100) t)) :=
  ⟨by decide, by decide,
   c7_command_sweep_batches exDbExpired 100 0 1 (by decide) (by decide)⟩

/-! C5 — `used_at` is set exactly once, atomically with the `is_used`
flip. -/

/-- The identity transition satisfies the strict discipline. -/
theorem usedAtStrict_refl (ts : List AccessToken) (now : Int) :
    UsedAtStrict ts ts now :=
  fun c' hc' => ⟨c', hc', rfl, Or.inl ⟨rfl, rfl⟩⟩

/-- Pure deletions satisfy the strict discipline. -/
theorem usedAtStrict_of_subset {pre post : List AccessToken} (now : Int)
    (h : ∀ c' ∈ post, c' ∈ pre) : UsedAtStrict pre post now :=
  fun c' hc' => ⟨c', h c' hc', rfl, Or.inl ⟨rfl, rfl⟩⟩

/-- Consuming one unused row satisfies the strict discipline. -/
theorem usedAtStrict_consume {ts : List AccessToken} (now : Int)
    (hids : (ts.map (fun t => t.id)).Nodup) {tobj : AccessToken}
    (hmem : tobj ∈ ts) (hunused : tobj.is_used = false) :
    UsedAtStrict ts (updateById ts tobj.id (consumeAt now)) now := by
  intro c' hc'
  obtain ⟨c, hc, he⟩ := mem_updateById hc'
  by_cases hid : c.id = tobj.id
  · have hceq : c = tobj := mem_eq_of_nodup_ids hids hc hmem hid
    rw [if_pos hid] at he
    refine ⟨c, hc, ?_, Or.inr ⟨?_, ?_, ?_⟩⟩
    · rw [he]; rfl
    · rw [hceq]; exact hunused
    · rw [he]; rfl
    · rw [he]; rfl
  · rw [if_neg hid] at he
    exact ⟨c, hc, by rw [he], Or.inl ⟨by rw [he], by rw [he]⟩⟩

/-- The strict discipline composes across two transitions at the same
instant. -/
theorem usedAtStrict_trans {a b c : List AccessToken} {now : Int}
    (h1 : UsedAtStrict a b now) (h2 : UsedAtStrict b c now) :
    UsedAtStrict a c now := by
  intro c' hc'
  obtain ⟨cb, hcb, hidb, hb⟩ := h2 c' hc'
  obtain ⟨ca, hca, hida, ha⟩ := h1 cb hcb
  refine ⟨ca, hca, hida.trans hidb, ?_⟩
  rcases hb with ⟨e1, e2⟩ | ⟨f1, f2, f3⟩
  · rcases ha with ⟨g1, g2⟩ | ⟨k1, k2, k3⟩
    · exact Or.inl ⟨e1.trans g1, e2.trans g2⟩
    · exact Or.inr ⟨k1, e1.trans k2, e2.trans k3⟩
  · rcases ha with ⟨g1, g2⟩ | ⟨k1, k2, k3⟩
    · exact Or.inr ⟨g1.symm.trans f1, f2, f3⟩
    · exact absurd (k2.symm.trans f1) (by simp)

/-- The strict discipline implies the general one. -/
theorem usedAtStep_of_strict {pre post : List AccessToken} {now : Int}
    (h : UsedAtStrict pre post now) : UsedAtStep pre post now :=
  fun c' hc' => Or.inl (h c' hc')

/-- A Validate call respects the strict discipline. -/
theorem validate_strict (db : DB) (now : Int) (token : String)
    (hids : (db.tokens.map (fun t => t.id)).Nodup) :
    UsedAtStrict db.tokens (validate_and_use_token db now token).2.tokens now := by
  unfold validate_and_use_token
  split
  · exact usedAtStrict_refl _ _
  · split
    · exact usedAtStrict_refl _ _
    · rename_i tobj hfind
      split
      · exact usedAtStrict_refl _ _
      · rename_i hnotused
        split
        · exact usedAtStrict_refl _ _
        · split
          · exact usedAtStrict_refl _ _
          · split
            · exact usedAtStrict_consume now hids
                (List.mem_of_find?_eq_some hfind) (Bool.not_eq_true _ ▸ hnotused)
            · exact usedAtStrict_refl _ _

/-- The defensive invalidation respects the strict discipline. -/
theorem defensive_strict (db : DB) (now : Int) (token : String)
    (hids : (db.tokens.map (fun t => t.id)).Nodup) :
    UsedAtStrict db.tokens
      (invalidate_token_on_failed_attempt db now token).2.tokens now := by
  unfold invalidate_token_on_failed_attempt
  split
  · exact usedAtStrict_refl _ _
  · rename_i tobj hfind
    split
    · rename_i hcond
      exact usedAtStrict_consume now hids (List.mem_of_find?_eq_some hfind) hcond.1
    · exact usedAtStrict_refl _ _

/-- The instructor invalidation view respects the strict discipline. -/
theorem invalidate_strict (db : DB) (now : Int) (tid : Nat)
    (hids : (db.tokens.map (fun t => t.id)).Nodup) :
    UsedAtStrict db.tokens (invalidate_token db now tid).2.tokens now := by
  unfold invalidate_token
  split
  · exact usedAtStrict_refl _ _
  · rename_i tobj hfind
    split
    · exact usedAtStrict_refl _ _
    · rename_i hnotused
      exact usedAtStrict_consume now hids
        (List.mem_of_find?_eq_some hfind) (Bool.not_eq_true _ ▸ hnotused)

/-- The access view (Validate plus defensive side effect) respects the
strict discipline. -/
theorem access_strict (db : DB) (now : Int) (token : String)
    (hids : (db.tokens.map (fun t => t.id)).Nodup) :
    UsedAtStrict db.tokens (validate_and_access_exam db now token).2.tokens now := by
  unfold validate_and_access_exam
  split
  · exact usedAtStrict_refl _ _
  · split
    · rename_i ex st sc db1 heq
      have h1 := validate_strict db now token hids
      rw [heq] at h1
      exact h1
    · rename_i e code db1 heq
      have hdb1 : db1 = db := validate_err_snd_eq db now token e code db1 heq
      subst hdb1
      split
      · exact defensive_strict db1 now token hids
      · exact usedAtStrict_refl _ _

/-- The final table of the command's deletion loop is a subset of its
input table. -/
theorem command_cleanup_loop_subset (fuel bs : Nat) (cutoff : Int) :
    ∀ ts, ∀ c' ∈ (command_cleanup_loop fuel bs cutoff ts).2, c' ∈ ts := by
  induction fuel with
  | zero => intro ts c' hc'; exact hc'
  | succ m ih =>
    intro ts c' hc'
    rw [command_cleanup_loop] at hc'
    split at hc'
    · exact hc'
    · exact List.mem_of_mem_filter (ih _ c' hc')

/-- C5: every lifecycle operation — issuance (with or without
regeneration), validation, instructor invalidation, defensive
invalidation, both sweeps, and the access view — respects the `used_at`
discipline: a surviving credential either keeps its `is_used` and
`used_at` fields unchanged, or flips `is_used` from false to true while
setting `used_at` to the operation's current instant in the same atomic
step; rows created by the operation start unused with a null `used_at`.
In particular `used_at` stays null until consumption and is never
written again after the flip. -/
theorem c5_used_at_set_atomically_once (op : Op) (db : DB)
    (hids : (db.tokens.map (fun t => t.id)).Nodup) :
    UsedAtStep db.tokens (Op.apply op db).tokens (Op.now op) := by
  cases op with
  | issue now fresh newId eid sid vm regen =>
    show UsedAtStep db.tokens
      (generate_exam_token db now fresh newId eid sid vm regen).2.tokens now
    unfold generate_exam_token
    split
    · exact usedAtStep_of_strict (usedAtStrict_refl _ _)
    · split
      · exact usedAtStep_of_strict (usedAtStrict_refl _ _)
      · split
        · exact usedAtStep_of_strict (usedAtStrict_refl _ _)
        · split
          · exact usedAtStep_of_strict (usedAtStrict_refl _ _)
          · split
            · rename_i existing hfind
              split
              · -- regeneration path: the insert below always violates the
                -- (exam, student) pair constraint, so the transaction rolls
                -- back and the store is unchanged
                unfold insertToken
                split
                · exact usedAtStep_of_strict (usedAtStrict_refl _ _)
                · split
                  · exact usedAtStep_of_strict (usedAtStrict_refl _ _)
                  · rename_i hcol hnopair
                    exfalso
                    apply hnopair
                    have hmem : existing ∈ db.tokens := List.mem_of_find?_eq_some hfind
                    have hpair := List.find?_some hfind
                    have hup := @updateById_mem_of_mem db.tokens existing.id
                      (fun t => { t with is_used := true }) existing hmem
                    rw [if_pos rfl] at hup
                    exact List.any_eq_true.mpr ⟨_, hup, by simpa using hpair⟩
              · exact usedAtStep_of_strict (usedAtStrict_refl _ _)
            · unfold insertToken
              split
              · exact usedAtStep_of_strict (usedAtStrict_refl _ _)
              · split
                · exact usedAtStep_of_strict (usedAtStrict_refl _ _)
                · split
                  · exact usedAtStep_of_strict (usedAtStrict_refl _ _)
                  · intro c' hc'
                    rcases List.mem_append.mp hc' with h | h
                    · exact Or.inl ⟨c', h, rfl, Or.inl ⟨rfl, rfl⟩⟩
                    · right
                      rw [List.mem_singleton.mp h]
                      exact ⟨rfl, rfl⟩
  | validate now tok => exact usedAtStep_of_strict (validate_strict db now tok hids)
  | invalidate now tid => exact usedAtStep_of_strict (invalidate_strict db now tid hids)
  | defensive now tok => exact usedAtStep_of_strict (defensive_strict db now tok hids)
  | sweep now d =>
    exact usedAtStep_of_strict
      (usedAtStrict_of_subset now (fun c' hc' => List.mem_of_mem_filter hc'))
  | access now tok => exact usedAtStep_of_strict (access_strict db now tok hids)
  | commandSweep now d bs =>
    exact usedAtStep_of_strict
      (usedAtStrict_of_subset now (command_cleanup_loop_subset _ bs _ db.tokens))

/-- C5 witness: a successful Validate of the live credential of the
concrete store, through the operation wrapper. -/
theorem c5_witness :
    (exDb.tokens.map (fun t => t.id)).Nodup ∧
    UsedAtStep exDb.tokens
      (Op.apply (Op.validate 120 "oldtok") exDb).tokens
      (Op.now (Op.validate 120 "oldtok")) :=
  ⟨by decide, c5_used_at_set_atomically_once (Op.validate 120 "oldtok") exDb (by decide)⟩

end SecureExam
